import Mathlib

/-!
Verification of the status-inference and scheduling core of the repository.

Two components are embedded from the source:

* `CAPI` — the status oracle of `src/faceswap_all/faceswap/comfy_api.py`
  (`ComfyAPI.check_status`, `ComfyAPI._id_in_queue`,
  `ComfyAPI._extract_status_fields`, `ComfyAPI._normalize_id`) together with
  the completion probe `_check_done` of
  `src/faceswap_all/faceswap/scheduler.py`.

* `Sched` — the scheduler loop `run_queue` of
  `src/改3/faceswap/scheduler.py` (with its inner `launch_one`), embedded as
  a step function over an explicit state.  Remote calls are modelled by a
  `Behavior` oracle indexed by a global call counter; a call that raises is
  an `Except.error` result.  Timestamps are naturals drawn from the
  behavior's `clock`.
-/

namespace CAPI

/-- Python `str.strip()`: drop leading and trailing whitespace. -/
def pyStrip (s : String) : String :=
  ((s.toList.dropWhile Char.isWhitespace).reverse.dropWhile Char.isWhitespace).reverse.asString

/-- Python `str.lower()`. -/
def pyLower (s : String) : String := (s.toList.map Char.toLower).asString

/-- Python `ComfyAPI._normalize_id`: `str(x).strip()`, with `None` input and
an all-whitespace result both collapsing to `None` (modelled as `none`).
`some s` carries the `str()` image of the Python value. -/
def normId (x : Option String) : Option String :=
  match x with
  | none => none
  | some s => let t := pyStrip s; if t = "" then none else some t

/-- Element shapes tolerated by `_id_in_queue`: a nonempty list/tuple (only
the head is inspected), a keyed record carrying `id` / `prompt_id` fields,
or a bare scalar.  Values are `str()` images; `none` models Python `None`
(for dict fields it covers both an absent key and a `None` value, which
`dict.get` makes indistinguishable). -/
inductive QItem where
  | arr (head : Option String)
  | keyed (idField : Option String) (pidField : Option String)
  | bare (v : Option String)
deriving DecidableEq

/-- Python truthiness-based `a or b` on optional strings: `None` and the
empty string are falsy. -/
def orTruthy (a b : Option String) : Option String :=
  match a with
  | some s => if s = "" then b else some s
  | none => b

/-- One element test of `_match_bucket` inside `_id_in_queue`: list/tuple
items match on their normalized head, dict items on
`item.get("id") or item.get("prompt_id")`, anything else on itself. -/
def matchItem (pid : Option String) : QItem → Bool
  | .arr h => normId h == pid
  | .keyed i p => normId (orTruthy i p) == pid
  | .bare v => normId v == pid

def matchBucket (bucket : List QItem) (pid : Option String) : Bool :=
  bucket.any (matchItem pid)

/-- Raw `/queue` JSON: the four possible bucket keys; `none` = key absent. -/
structure QueueData where
  queue_running : Option (List QItem)
  running : Option (List QItem)
  queue_pending : Option (List QItem)
  pending : Option (List QItem)
deriving DecidableEq

/-- Python `a or b or []` on possibly-absent lists (an empty list is falsy). -/
def orFalsyL (a b : Option (List QItem)) : List QItem :=
  match a with
  | some l =>
    if l.isEmpty then (match b with | some m => m | none => []) else l
  | none => match b with | some m => m | none => []

/-- Effective running bucket seen by `_id_in_queue` after `get_queue`'s key
merge: `data.get("queue_running") or data.get("running") or []` (the merge
in `get_queue` composed with the lookup in `_id_in_queue` nets to exactly
this chain on the raw keys). -/
def runningBucket (q : QueueData) : List QItem := orFalsyL q.queue_running q.running

def pendingBucket (q : QueueData) : List QItem := orFalsyL q.queue_pending q.pending

/-- `ComfyAPI._id_in_queue`: `'running'`, `'queued'` or `None`. -/
def id_in_queue (q : QueueData) (prompt_id : String) : Option String :=
  let pid := normId (some prompt_id)
  if matchBucket (runningBucket q) pid then some "running"
  else if matchBucket (pendingBucket q) pid then some "queued"
  else none

/-- Three-valued presence of a JSON field: absent, present but empty
(falsy, e.g. `{}` or `""`), or present and non-empty (truthy). -/
inductive F3 where
  | absent
  | presentEmpty
  | presentNonEmpty
deriving DecidableEq

def F3.truthy : F3 → Bool
  | .presentNonEmpty => true
  | _ => false

/-- The `status` field of a history record: a stringifiable scalar, a nested
dict (optional boolean `completed` plus stringifiable sub-fields given as an
association list, `(k, none)` meaning the key is present with value `None`),
or a value of some other type. -/
inductive StatusField where
  | sval (s : String)
  | sdict (completed : Option Bool) (fields : List (String × Option String))
  | sother
deriving DecidableEq

/-- History record for one prompt id, as read by `check_status`:
`status`, truthiness of `outputs`, `error` and `node_errors`. -/
structure HRec where
  status : Option StatusField
  outputs : F3
  errField : F3
  nodeErrors : F3
deriving DecidableEq

/-- First key of `keys` that is present in `fields` with a non-`None` value
(the inner loop of `_extract_status_fields`). -/
def firstKey (fields : List (String × Option String)) : List String → Option String
  | [] => none
  | k :: ks =>
    match fields.lookup k with
    | some (some v) => some v
    | _ => firstKey fields ks

/-- `ComfyAPI._extract_status_fields`: returns the lower-cased status string
(`""` when none can be extracted) and the `completed` boolean when the
status dict carries an actual boolean under that key. -/
def extract_status_fields (rec : HRec) : String × Option Bool :=
  match rec.status with
  | some (.sdict completed fields) =>
    match firstKey fields ["status_str", "status", "state", "phase", "label", "text"] with
    | some v => (pyLower (pyStrip v), completed)
    | none => ("", completed)
  | some (.sval s) => (pyLower (pyStrip s), none)
  | some .sother => ("", none)
  | none => ("", none)

def failTokens : List String := ["failed", "error", "interrupted", "exception"]

def doneTokens : List String := ["completed", "success", "ok", "done", "finished"]

/-- `ComfyAPI.check_status`.  `g n` is the outcome of the `n`-th `get_queue`
call of this poll (`Except.error` = the call raised); `hist` is the result
of `peek_history`, which swallows its own errors and returns `None`
(`none` covers both a failed lookup and an absent record, as in the
source).  Returns one of the five status strings. -/
def check_status (g : Nat → Except Unit QueueData) (hist : Option HRec)
    (prompt_id : String) : String :=
  let finalQueueCheck : Nat → String := fun k =>
    match g k with
    | .error _ => "unknown"
    | .ok q2 =>
      match id_in_queue q2 prompt_id with
      | none => "unknown"
      | some s => s
  let historyPart : Nat → String := fun k =>
    match hist with
    | none => "unknown"
    | some rec =>
      let sf := extract_status_fields rec
      if sf.1 ∈ failTokens then "failed"
      else if sf.2 = some true ∨ sf.1 ∈ doneTokens then "done"
      else if rec.errField.truthy || rec.nodeErrors.truthy then
        match g k with
        | .error _ => "failed"
        | .ok q2 =>
          if (id_in_queue q2 prompt_id).isNone then "failed"
          else if rec.outputs.truthy then "done"
          else finalQueueCheck (k + 1)
      else if rec.outputs.truthy then "done"
      else finalQueueCheck k
  match g 0 with
  | .ok q =>
    match id_in_queue q prompt_id with
    | some s => s
    | none => historyPart 1
  | .error _ => historyPart 1

/-- The `status` field as read by `_check_done` in
`src/faceswap_all/faceswap/scheduler.py`: a dict (truthiness of
`completed`, presence of a non-`None` `execution_time`, and the `str()`
image of `status_str` defaulting to `""`), or a stringifiable scalar. -/
inductive CDStatus where
  | sdict (completed : Bool) (hasExecTime : Bool) (statusStr : String)
  | sstr (v : String)
deriving DecidableEq

/-- History record for one prompt id, as read by `_check_done`: the
`status` key (absent or one of the shapes above), whether an `outputs` key
is present at all (its content is irrelevant there), and whether any other
key makes the record non-empty. -/
structure CDRecord where
  status : Option CDStatus
  outputsKey : Bool
  otherKeys : Bool
deriving DecidableEq

/-- Python truthiness of the record dict. -/
def CDRecord.truthyRec (r : CDRecord) : Bool :=
  r.status.isSome || r.outputsKey || r.otherKeys

/-- Naive substring test on character lists (Python `needle in hay`). -/
def containsChars (n : List Char) : List Char → Bool
  | [] => n.isEmpty
  | c :: t => n.isPrefixOf (c :: t) || containsChars n t

def strContains (hay needle : String) : Bool :=
  containsChars needle.toList hay.toList

/-- Python `str(x)` of an optional string value (`None` prints as "None"). -/
def pyStr (v : Option String) : String := v.getD "None"

/-- Queue-membership test of `_check_done`: list-shaped items match on
`str(item[0]) == prompt_id` (no strip), dict items on
`item.get('prompt_id') == prompt_id or item.get('id') == prompt_id`;
bare scalars are not considered. -/
def cdItemMatch (pid : String) : QItem → Bool
  | .arr h => pyStr h == pid
  | .keyed i p => p == some pid || i == some pid
  | .bare _ => false

/-- `_check_done` of `src/faceswap_all/faceswap/scheduler.py`
(lines 37-120).  `histRes` is the parsed `/history/{id}` response
(`.ok none` = the prompt id is not a key of it), `queueRes` the
`get_queue()` result used by the in-queue re-check; `Except.error`
models a raise, which the surrounding `try` turns into `(False, None)`.
Returns `(done?, error_detail)`. -/
def check_done (histRes : Except Unit (Option CDRecord))
    (queueRes : Except Unit QueueData) (prompt_id : String) : Bool × Option String :=
  match histRes with
  | .error _ => (false, none)
  | .ok none => (false, none)
  | .ok (some record) =>
    let statusDecision : Option (Bool × Option String) :=
      match record.status with
      | none => none
      | some (.sdict completed hasET ss) =>
        if completed then some (true, none)
        else if hasET then some (true, none)
        else if strContains (pyLower ss) "error" || strContains (pyLower ss) "fail" then
          some (true, some ss)
        else if strContains (pyLower ss) "success" || strContains (pyLower ss) "completed" then
          some (true, none)
        else none
      | some (.sstr v) =>
        let lv := pyLower v
        if strContains lv "error" || strContains lv "fail" then some (true, some v)
        else if strContains lv "success" || strContains lv "completed" then some (true, none)
        else none
    match statusDecision with
    | some d => d
    | none =>
      if record.outputsKey then (true, none)
      else
        match queueRes with
        | .error _ => (false, none)
        | .ok q =>
          let items := pendingBucket q ++ runningBucket q
          if ¬ items.any (cdItemMatch prompt_id) && record.truthyRec then (true, none)
          else (false, none)

end CAPI

namespace Sched

/-- The `Task` dataclass of `src/改3/faceswap/scheduler.py` as owned by the
scheduler: `workflow` is held as an index (`wfRef`) into an explicit store
of workflow contents, so that the deep-copy in `launch_one` and possible
mutation by the callee are observable. -/
structure STask where
  name : String
  wfRef : Nat
  retries : Nat
  max_retries : Nat
deriving DecidableEq

/-- Shape of the `result` payload a terminal record can carry (which of the
literal dicts of `run_queue` it is, or a history record from
`peek_history`). -/
inductive RVal where
  | histRec
  | doneNoOutputs
  | doneBare
  | noOutput
  | heuristicDone
deriving DecidableEq

/-- One element of the returned `done` list: `{"task": t, "result": rec}`
on success, `{"task": t, "error": msg}` on terminal failure. -/
structure SRes where
  task : STask
  result : Option RVal
  error : Option String
deriving DecidableEq

/-- One in-flight dict of `run_queue`:
`{"task", "id", "ts", "last_status", "last_change", "no_change_count"}`. -/
structure Entry where
  task : STask
  pid : String
  ts : Nat
  last_status : String
  last_change : Nat
  no_change_count : Nat
deriving DecidableEq

/-- Queue elements as inspected by the stale re-check of `run_queue`
(lines 128-139): only list-shaped items with a head are looked at, all
other shapes are ignored. -/
inductive QEl where
  | listHead (pid : String)
  | other
deriving DecidableEq

def qelMatches (pid : String) : QEl → Bool
  | .listHead p => p == pid
  | .other => false

/-- Oracle for the remote backend and the clock.  Every call site in
`run_queue` consumes one tick of a global call counter, and each call may
raise (`Except.error`):

* `post n wf` — `api.post_prompt` on workflow content `wf`;
* `postMut n wf` — content of the dict passed to `post_prompt` after the
  call (the callee may mutate its argument in place);
* `check n pid` — `api.check_status`;
* `peek n pid` — `api.peek_history` (`none` = `None`,
  `some b` = a dict, `b` = it is non-empty);
* `queueCall n` — `api.get_queue` with its two buckets
  `(queue_running, queue_pending)`;
* `clock n` — `time.time()`. -/
structure Behavior where
  post : Nat → String → Except String String
  postMut : Nat → String → String
  check : Nat → String → Except String String
  peek : Nat → String → Except String (Option Bool)
  queueCall : Nat → Except String (List QEl × List QEl)
  clock : Nat → Nat

/-- Scheduler state between loop iterations, plus ghost observables:
`subCount` counts `post_prompt` calls, `requeues` counts re-enqueues of a
task after a failure, and `store` is the heap of workflow dicts (initial
tasks' cells first, one fresh cell per submission for the deep copy). -/
structure SState where
  pending : List STask
  inflight : List Entry
  done : List SRes
  store : List String
  ctr : Nat
  subCount : Nat
  requeues : Nat
deriving DecidableEq

def taskWeight (t : STask) : Nat := t.max_retries - t.retries + 1

def pendingWeight (l : List STask) : Nat := (l.map taskWeight).sum

structure LaunchOut where
  newStore : List String
  newCtr : Nat
  outcome : Except String Entry

/-- `launch_one` (lines 23-35): deep-copy the task's workflow into a fresh
cell, submit the copy (the callee may mutate that copy and/or raise), and
on success build the in-flight entry with `last_status = "queued"` and both
timestamps set to `time.time()`. -/
def launch_one (b : Behavior) (store : List String) (ctr : Nat) (t : STask) : LaunchOut :=
  let wf := (store.get? t.wfRef).getD ""
  let store' := store ++ [b.postMut ctr wf]
  match b.post ctr wf with
  | .error e => ⟨store', ctr + 1, .error e⟩
  | .ok pid =>
    let now := b.clock (ctr + 1)
    ⟨store', ctr + 2, .ok ⟨t, pid, now, "queued", now, 0⟩⟩

/-- Admission loop (`while pending and len(inflight) < max_inflight`,
lines 44-55).  On a submission failure the task is re-enqueued at the tail
with its retry counter bumped, or dropped with a terminal error Result once
the budget is exhausted.  The loop strictly decreases `pendingWeight`, so
it is structured on that measure as an explicit first argument (the zero
case is unreachable from fuel `pendingWeight s.pending`, because a
non-empty pending list has positive weight). -/
def admitGo (b : Behavior) (mi : Nat) : Nat → SState → SState
  | 0, s => s
  | w + 1, s =>
    match s.pending with
    | [] => s
    | t :: rest =>
      if s.inflight.length < mi then
        let lo := launch_one b s.store s.ctr t
        match lo.outcome with
        | .ok e =>
          admitGo b mi w
            { s with
              pending := rest, inflight := s.inflight ++ [e],
              store := lo.newStore, ctr := lo.newCtr, subCount := s.subCount + 1 }
        | .error msg =>
          if t.retries < t.max_retries then
            admitGo b mi w { s with
              pending := rest ++ [{ t with retries := t.retries + 1 }],
              store := lo.newStore, ctr := lo.newCtr, subCount := s.subCount + 1,
              requeues := s.requeues + 1 }
          else
            admitGo b mi w { s with
              pending := rest,
              done := s.done ++ [⟨t, none, some msg⟩],
              store := lo.newStore, ctr := lo.newCtr, subCount := s.subCount + 1 }
      else s

def admitLoop (b : Behavior) (mi : Nat) (s : SState) : SState :=
  admitGo b mi (pendingWeight s.pending) s

/-- Disposition of one in-flight entry after one poll. -/
inductive ProbeOut where
  | keep (e : Entry)
  | finish (r : SRes)
  | requeue (t : STask)
deriving DecidableEq

def fiveStates : List String := ["queued", "running", "done", "failed", "unknown"]

/-- The timeout eviction of lines 150-158 (`age > 300`). -/
def timeoutOutcome (t : STask) : ProbeOut :=
  if t.retries < t.max_retries then .requeue { t with retries := t.retries + 1 }
  else .finish ⟨t, none, some "timeout"⟩

/-- Classification part of the probe loop body (lines 70-161), given the
status string obtained for this poll.  `age` and `time_since_change` are
computed before the last-status bookkeeping is updated, exactly as in the
source; the stale re-check reads the updated `no_change_count`. -/
def probeClassify (b : Behavior) (now : Nat) (k1 : Nat) (e : Entry)
    (status : String) : ProbeOut × Nat :=
  let age := now - e.ts
  let tsc := now - e.last_change
  let e' :=
    if status ≠ e.last_status then
      { e with last_status := status, last_change := now, no_change_count := 0 }
    else
      { e with no_change_count := e.no_change_count + 1 }
  if status = "done" then
    match b.peek k1 e.pid with
    | .ok (some true) => (.finish ⟨e.task, some .histRec, none⟩, k1 + 1)
    | .ok (some false) => (.finish ⟨e.task, some .doneNoOutputs, none⟩, k1 + 1)
    | .ok none => (.finish ⟨e.task, some .doneNoOutputs, none⟩, k1 + 1)
    | .error _ => (.finish ⟨e.task, some .doneBare, none⟩, k1 + 1)
  else if status = "failed" then
    if e.task.retries < e.task.max_retries then
      (.requeue { e.task with retries := e.task.retries + 1 }, k1)
    else
      (.finish ⟨e.task, none, some "failed"⟩, k1)
  else if status = "unknown" then
    if 30 < tsc then (.finish ⟨e.task, some .noOutput, none⟩, k1)
    else if 300 < age then (timeoutOutcome e.task, k1)
    else (.keep e', k1)
  else if status = "running" ∨ status = "queued" then
    if 10 < tsc ∧ 3 < e'.no_change_count then
      match b.queueCall k1 with
      | .ok (runL, pendL) =>
        if (runL.any (qelMatches e.pid) || pendL.any (qelMatches e.pid)) = false then
          (.finish ⟨e.task, some .heuristicDone, none⟩, k1 + 1)
        else if 300 < age then (timeoutOutcome e.task, k1 + 1)
        else (.keep e', k1 + 1)
      | .error _ =>
        if 300 < age then (timeoutOutcome e.task, k1 + 1)
        else (.keep e', k1 + 1)
    else if 300 < age then (timeoutOutcome e.task, k1)
    else (.keep e', k1)
  else
    if 300 < age then (timeoutOutcome e.task, k1)
    else (.keep e', k1)

/-- One iteration of the probe loop body (lines 60-161) on one in-flight
entry: the status probe itself (a raising `check_status` yields the literal
status `"probe-error: " ++ msg`, line 68) followed by the classification. -/
def probeOne (b : Behavior) (now : Nat) (k : Nat) (e : Entry) : ProbeOut × Nat :=
  match b.check k e.pid with
  | .ok s => probeClassify b now (k + 1) e s
  | .error msg => probeClassify b now (k + 1) e ("probe-error: " ++ msg)

structure ProbeLoopOut where
  kept : List Entry
  finished : List SRes
  requeued : List STask
  newCtr : Nat

/-- The probe loop over the whole in-flight list; kept entries stay in
order, finished Results and re-enqueued tasks are collected in processing
order (the source appends them to `done` / `pending` as it goes). -/
def probeLoop (b : Behavior) (now : Nat) : Nat → List Entry → ProbeLoopOut
  | k, [] => ⟨[], [], [], k⟩
  | k, e :: rest =>
    match probeOne b now k e with
    | (.keep e', k') =>
      let o := probeLoop b now k' rest
      { o with kept := e' :: o.kept }
    | (.finish r, k') =>
      let o := probeLoop b now k' rest
      { o with finished := r :: o.finished }
    | (.requeue t, k') =>
      let o := probeLoop b now k' rest
      { o with requeued := t :: o.requeued }

/-- One iteration of the outer `while pending or inflight` loop: admit as
many tasks as the ceiling allows, take one `time.time()` reading, then
probe every in-flight entry.  The heartbeat print and the sleep do not
change state. -/
def stepRound (b : Behavior) (mi : Nat) (s : SState) : SState :=
  let s1 := admitLoop b mi s
  let now := b.clock s1.ctr
  let o := probeLoop b now (s1.ctr + 1) s1.inflight
  { s1 with
    pending := s1.pending ++ o.requeued, inflight := o.kept,
    done := s1.done ++ o.finished, ctr := o.newCtr,
    requeues := s1.requeues + o.requeued.length }

/-- `run_queue`'s outer loop with fuel (`none` = fuel exhausted before both
lists drained). -/
def runAux (b : Behavior) (mi : Nat) : Nat → SState → Option SState
  | 0, _ => none
  | fuel + 1, s =>
    if s.pending = [] ∧ s.inflight = [] then some s
    else runAux b mi fuel (stepRound b mi s)

/-- A caller-side task descriptor: the actual workflow content plus the
retry counters (`retries` defaults to 0 and `max_retries` to 2 in the
source dataclass). -/
structure Task0 where
  name : String
  workflow : String
  retries : Nat
  max_retries : Nat
deriving DecidableEq

/-- Initial state of `run_queue`: `pending = tasks[:]`, everything else
empty; the store holds each caller task's workflow dict. -/
def initState (ts : List Task0) : SState :=
  { pending := ((List.range ts.length).zip ts).map
      (fun p => ⟨p.2.name, p.1, p.2.retries, p.2.max_retries⟩),
    inflight := [], done := [], store := ts.map Task0.workflow,
    ctr := 0, subCount := 0, requeues := 0 }

/-- `run_queue api tasks max_inflight poll_interval` (the poll interval only
feeds `time.sleep` and is dropped). -/
def run_queue (b : Behavior) (ts : List Task0) (mi : Nat) (fuel : Nat) :
    Option (List SRes) :=
  (runAux b mi fuel (initState ts)).map SState.done

end Sched

/-! Concrete instances used to exercise the embeddings at specific inputs. -/

/-- Queue endpoint that raises on every call. -/
def gRaise : Nat → Except Unit CAPI.QueueData := fun _ => .error ()

/-- History record carrying only a non-empty `error` marker. -/
def recErrMark : CAPI.HRec := ⟨none, .absent, .presentNonEmpty, .absent⟩

/-- Queue response with no buckets at all. -/
def qdEmpty : CAPI.QueueData := ⟨none, none, none, none⟩

def gEmpty : Nat → Except Unit CAPI.QueueData := fun _ => .ok qdEmpty

/-- History record `{"outputs": {}}`: outputs present but empty, no status. -/
def recEmptyOut : CAPI.HRec := ⟨none, .presentEmpty, .absent, .absent⟩

/-- History record with a non-empty outputs field and no status. -/
def recFullOut : CAPI.HRec := ⟨none, .presentNonEmpty, .absent, .absent⟩

/-- Queue snapshot whose running bucket holds `["abc", 7]`-style entries and
whose pending bucket holds a bare `"xyz"`. -/
def qdRun : CAPI.QueueData :=
  ⟨some [CAPI.QItem.arr (some "abc")], none, none, some [CAPI.QItem.bare (some "xyz")]⟩

/-- History record for `_check_done` with an `outputs` key and no status. -/
def cdOutRec : CAPI.CDRecord := ⟨none, true, false⟩

/-- Scheduler behavior whose submissions always raise and whose polls
always answer `unknown`. -/
def bSubRaise : Sched.Behavior :=
  ⟨fun _ _ => .error "boom", fun _ w => w, fun _ _ => .ok "unknown",
   fun _ _ => .ok none, fun _ => .ok ([], []), fun _ => 0⟩

def tOneRetry : Sched.Task0 := ⟨"t", "wf", 0, 1⟩

/-- Scheduler behavior whose submissions succeed and whose status probes
always raise, with a frozen clock. -/
def bProbeRaise : Sched.Behavior :=
  ⟨fun _ _ => .ok "pid1", fun _ w => w, fun _ _ => .error "boom",
   fun _ _ => .ok none, fun _ => .ok ([], []), fun _ => 0⟩

def tTwoRetry : Sched.Task0 := ⟨"t", "wf", 0, 2⟩

/-- Scheduler behavior whose submissions succeed and whose polls always
report `failed`. -/
def bPollFail : Sched.Behavior :=
  ⟨fun _ _ => .ok "pid1", fun _ w => w, fun _ _ => .ok "failed",
   fun _ _ => .ok none, fun _ => .ok ([], []), fun _ => 0⟩

/-- Scheduler behavior whose submissions succeed, whose polls always raise,
and whose clock advances 1000 per call. -/
def bProbeRaiseClock : Sched.Behavior :=
  ⟨fun _ _ => .ok "p", fun _ w => w, fun _ _ => .error "net",
   fun _ _ => .ok none, fun _ => .ok ([], []), fun n => 1000 * n⟩

/-- Scheduler behavior whose polls always report `unknown`. -/
def bUnknown : Sched.Behavior :=
  ⟨fun _ _ => .ok "pid1", fun _ w => w, fun _ _ => .ok "unknown",
   fun _ _ => .ok none, fun _ => .ok ([], []), fun _ => 0⟩

/-- An in-flight entry that has been sitting at `unknown` for 100 ticks. -/
def eStale : Sched.Entry := ⟨⟨"t", 0, 0, 2⟩, "pid1", 0, "unknown", 0, 4⟩

/-- Task list for exercising the mutation frame property. -/
def tsFrame : List Sched.Task0 := [⟨"t", "wfA", 0, 0⟩]

/-- The final state of running `bSubRaise` on `tsFrame` with ceiling 1 and
fuel 2, written out literally. -/
def sFrameFinal : Sched.SState :=
  ⟨[], [], [⟨⟨"t", 0, 0, 0⟩, none, some "boom"⟩], ["wfA", "wfA"], 2, 1, 0⟩

/-- The in-flight entry after one round of `bUnknown` on `tTwoRetry`:
launched at `queued`, then observed `unknown`. -/
def eUnknownRound : Sched.Entry := ⟨⟨"t", 0, 0, 2⟩, "pid1", 0, "unknown", 0, 0⟩

/-- `eStale` after one probe that raised `boom`. -/
def eStaleProbed : Sched.Entry := ⟨⟨"t", 0, 0, 2⟩, "pid1", 0, "probe-error: boom", 0, 0⟩

/-! Helper lemmas. -/

namespace Sched

theorem probe_error_ne (msg t : String) (ht : t.length < 13) :
    ("probe-error: " ++ msg) ≠ t := by
  intro h
  have hl := congrArg String.length h
  rw [String.length_append] at hl
  have h13 : ("probe-error: " : String).length = 13 := by decide
  omega

theorem probeOne_raise (b : Behavior) (now k : Nat) (e : Entry) (msg : String)
    (hc : b.check k e.pid = Except.error msg) :
    probeOne b now k e = probeClassify b now (k + 1) e ("probe-error: " ++ msg) := by
  unfold probeOne
  rw [hc]

theorem probeOne_ok (b : Behavior) (now k : Nat) (e : Entry) (st : String)
    (hc : b.check k e.pid = Except.ok st) :
    probeOne b now k e = probeClassify b now (k + 1) e st := by
  unfold probeOne
  rw [hc]

/-- Classification of a status string that is none of the five recognized
ones, while the entry is within the hard age ceiling: the entry is kept,
with its task (hence its retry budget) untouched and the status recorded
verbatim as `last_status`. -/
theorem probeClassify_other (b : Behavior) (now k1 : Nat) (e : Entry) (status : String)
    (h1 : status ≠ "done") (h2 : status ≠ "failed") (h3 : status ≠ "unknown")
    (h4 : status ≠ "running") (h5 : status ≠ "queued")
    (hage : now - e.ts ≤ 300) :
    ∃ e', probeClassify b now k1 e status = (.keep e', k1) ∧
      e'.task = e.task ∧ e'.last_status = status := by
  unfold probeClassify
  rw [if_neg h1, if_neg h2, if_neg h3, if_neg (by simp [h4, h5]),
    if_neg (by omega : ¬ 300 < now - e.ts)]
  by_cases hls : status ≠ e.last_status
  · rw [if_pos hls]
    exact ⟨_, rfl, rfl, rfl⟩
  · rw [if_neg hls]
    refine ⟨_, rfl, rfl, ?_⟩
    simpa using (not_not.mp hls).symm

/-- The same status, but past the hard age ceiling: timeout eviction. -/
theorem probeClassify_other_timeout (b : Behavior) (now k1 : Nat) (e : Entry) (status : String)
    (h1 : status ≠ "done") (h2 : status ≠ "failed") (h3 : status ≠ "unknown")
    (h4 : status ≠ "running") (h5 : status ≠ "queued")
    (hage : 300 < now - e.ts) :
    probeClassify b now k1 e status = (timeoutOutcome e.task, k1) := by
  unfold probeClassify
  rw [if_neg h1, if_neg h2, if_neg h3, if_neg (by simp [h4, h5]), if_pos hage]

/-- An `unknown` poll with more than 30 time units since the last recorded
status change: the entry finishes as a success with the
`{"status": "done", "no_output": True}` payload. -/
theorem probeClassify_unknown_promote (b : Behavior) (now k1 : Nat) (e : Entry)
    (ht : 30 < now - e.last_change) :
    probeClassify b now k1 e "unknown" =
      (.finish ⟨e.task, some .noOutput, none⟩, k1) := by
  unfold probeClassify
  rw [if_neg (by decide), if_neg (by decide), if_pos rfl, if_pos ht]

/-- A `failed` poll: pop, then retry-or-drop on the task's budget. -/
theorem probeClassify_failed (b : Behavior) (now k1 : Nat) (e : Entry) :
    probeClassify b now k1 e "failed" =
      (if e.task.retries < e.task.max_retries then
        (.requeue { e.task with retries := e.task.retries + 1 }, k1)
      else (.finish ⟨e.task, none, some "failed"⟩, k1)) := by
  unfold probeClassify
  rw [if_neg (by decide), if_pos rfl]

/-- A kept entry always records the just-observed status verbatim: either
the bookkeeping updated `last_status` to it, or it was unchanged and equal
to it already. -/
theorem probeClassify_keep_last (b : Behavior) (now k1 : Nat) (e e' : Entry) (status : String)
    (h : (probeClassify b now k1 e status).1 = ProbeOut.keep e') :
    e'.last_status = status := by
  dsimp only [probeClassify, timeoutOutcome] at h
  repeat' split at h
  all_goals simp_all
  all_goals subst h
  all_goals simp_all

theorem probeLoop_nil (b : Behavior) (now k : Nat) :
    probeLoop b now k [] = ⟨[], [], [], k⟩ := rfl

theorem probeLoop_cons_keep (b : Behavior) (now k k' : Nat) (e e' : Entry) (rest : List Entry)
    (h : probeOne b now k e = (.keep e', k')) :
    probeLoop b now k (e :: rest) =
      { probeLoop b now k' rest with kept := e' :: (probeLoop b now k' rest).kept } := by
  conv_lhs => unfold probeLoop
  rw [h]

theorem probeLoop_cons_finish (b : Behavior) (now k k' : Nat) (e : Entry) (r : SRes) (rest : List Entry)
    (h : probeOne b now k e = (.finish r, k')) :
    probeLoop b now k (e :: rest) =
      { probeLoop b now k' rest with finished := r :: (probeLoop b now k' rest).finished } := by
  conv_lhs => unfold probeLoop
  rw [h]

theorem probeLoop_cons_requeue (b : Behavior) (now k k' : Nat) (e : Entry) (t : STask) (rest : List Entry)
    (h : probeOne b now k e = (.requeue t, k')) :
    probeLoop b now k (e :: rest) =
      { probeLoop b now k' rest with requeued := t :: (probeLoop b now k' rest).requeued } := by
  conv_lhs => unfold probeLoop
  rw [h]

/-- The probe loop conserves entries: every in-flight item either stays,
finishes, or is re-queued. -/
theorem probeLoop_counts (b : Behavior) (now : Nat) :
    ∀ (es : List Entry) (k : Nat),
      (probeLoop b now k es).kept.length + (probeLoop b now k es).finished.length +
        (probeLoop b now k es).requeued.length = es.length := by
  intro es
  induction es with
  | nil => intro k; rfl
  | cons e rest ih =>
    intro k
    rcases hp : probeOne b now k e with ⟨out, k'⟩
    cases out with
    | keep e' => rw [probeLoop_cons_keep b now k k' e e' rest hp]; simp; have := ih k'; omega
    | finish r => rw [probeLoop_cons_finish b now k k' e r rest hp]; simp; have := ih k'; omega
    | requeue t => rw [probeLoop_cons_requeue b now k k' e t rest hp]; simp; have := ih k'; omega

theorem probeLoop_kept_le (b : Behavior) (now k : Nat) (es : List Entry) :
    (probeLoop b now k es).kept.length ≤ es.length := by
  have := probeLoop_counts b now es k
  omega

/-- If every status probe returns one of the five normalized states, every
entry kept by the probe loop records one of the five. -/
theorem probeLoop_kept_five (b : Behavior) (now : Nat)
    (hfive : ∀ n p, ∃ st, b.check n p = Except.ok st ∧ st ∈ fiveStates) :
    ∀ (es : List Entry) (k : Nat), ∀ e' ∈ (probeLoop b now k es).kept,
      e'.last_status ∈ fiveStates := by
  intro es
  induction es with
  | nil => intro k e' he'; simp [probeLoop_nil] at he'
  | cons e rest ih =>
    intro k e' he'
    rcases hp : probeOne b now k e with ⟨out, k'⟩
    cases out with
    | keep ek =>
      rw [probeLoop_cons_keep b now k k' e ek rest hp] at he'
      simp only [List.mem_cons] at he'
      rcases he' with he1 | he2
      · subst he1
        obtain ⟨st, hok, hmem⟩ := hfive k e.pid
        rw [probeOne_ok b now k e st hok] at hp
        have hls : e'.last_status = st :=
          probeClassify_keep_last b now (k + 1) e e' st (by rw [hp])
        rw [hls]; exact hmem
      · exact ih k' e' he2
    | finish r =>
      rw [probeLoop_cons_finish b now k k' e r rest hp] at he'
      exact ih k' e' he'
    | requeue t =>
      rw [probeLoop_cons_requeue b now k k' e t rest hp] at he'
      exact ih k' e' he'

theorem admitGo_nil (b : Behavior) (mi : Nat) :
    ∀ (w : Nat) (s : SState), s.pending = [] → admitGo b mi w s = s := by
  intro w s hs
  cases w with
  | zero => rfl
  | succ w => unfold admitGo; rw [hs]

theorem admitGo_inflight_le (b : Behavior) (mi : Nat) :
    ∀ (w : Nat) (s : SState), s.inflight.length ≤ mi →
      (admitGo b mi w s).inflight.length ≤ mi := by
  intro w
  induction w with
  | zero => intro s h; exact h
  | succ w ih =>
    intro s h
    unfold admitGo
    cases hs : s.pending with
    | nil => exact h
    | cons t rest =>
      dsimp only
      by_cases hmi : s.inflight.length < mi
      · rw [if_pos hmi]
        cases ho : (launch_one b s.store s.ctr t).outcome with
        | ok e =>
          dsimp only
          apply ih
          simpa using hmi
        | error msg =>
          dsimp only
          by_cases hr : t.retries < t.max_retries
          · rw [if_pos hr]; exact ih _ h
          · rw [if_neg hr]; exact ih _ h
      · rw [if_neg hmi]; exact h

/-- Total number of task records in the system (pending, in-flight and
terminal together). -/
def sizeSum (s : SState) : Nat :=
  s.pending.length + s.inflight.length + s.done.length

theorem admitGo_sizeSum (b : Behavior) (mi : Nat) :
    ∀ (w : Nat) (s : SState), sizeSum (admitGo b mi w s) = sizeSum s := by
  intro w
  induction w with
  | zero => intro s; rfl
  | succ w ih =>
    intro s
    unfold admitGo
    cases hs : s.pending with
    | nil => rfl
    | cons t rest =>
      dsimp only
      by_cases hmi : s.inflight.length < mi
      · rw [if_pos hmi]
        cases ho : (launch_one b s.store s.ctr t).outcome with
        | ok e =>
          dsimp only
          rw [ih]; simp [sizeSum, hs]; omega
        | error msg =>
          dsimp only
          by_cases hr : t.retries < t.max_retries
          · rw [if_pos hr, ih]; simp [sizeSum, hs]
          · rw [if_neg hr, ih]; simp [sizeSum, hs]; omega
      · rw [if_neg hmi]

theorem launch_one_newStore (b : Behavior) (store : List String) (ctr : Nat) (t : STask) :
    (launch_one b store ctr t).newStore =
      store ++ [b.postMut ctr ((store.get? t.wfRef).getD "")] := by
  unfold launch_one
  dsimp only
  cases b.post ctr ((store.get? t.wfRef).getD "") <;> rfl

/-- The admission loop only ever appends fresh cells to the workflow store
(one deep copy per submission); pre-existing cells are untouched. -/
theorem admitGo_store_extends (b : Behavior) (mi : Nat) :
    ∀ (w : Nat) (s : SState), ∃ l, (admitGo b mi w s).store = s.store ++ l := by
  intro w
  induction w with
  | zero => intro s; exact ⟨[], by simp only [List.append_nil]; rfl⟩
  | succ w ih =>
    intro s
    have key : ∀ (s2 : SState) (c : String), s2.store = s.store ++ [c] →
        ∃ l, (admitGo b mi w s2).store = s.store ++ l := by
      intro s2 c hst
      obtain ⟨l, hl⟩ := ih s2
      exact ⟨c :: l, by rw [hl, hst]; simp⟩
    unfold admitGo
    cases hs : s.pending with
    | nil => exact ⟨[], by simp⟩
    | cons t rest =>
      dsimp only
      by_cases hmi : s.inflight.length < mi
      · rw [if_pos hmi]
        cases ho : (launch_one b s.store s.ctr t).outcome with
        | ok e =>
          dsimp only
          exact key _ (b.postMut s.ctr ((s.store.get? t.wfRef).getD ""))
            (by simp [launch_one_newStore])
        | error msg =>
          dsimp only
          by_cases hr : t.retries < t.max_retries
          · rw [if_pos hr]
            exact key _ (b.postMut s.ctr ((s.store.get? t.wfRef).getD ""))
              (by simp [launch_one_newStore])
          · rw [if_neg hr]
            exact key _ (b.postMut s.ctr ((s.store.get? t.wfRef).getD ""))
              (by simp [launch_one_newStore])
      · rw [if_neg hmi]; exact ⟨[], by simp⟩

theorem stepRound_store_extends (b : Behavior) (mi : Nat) (s : SState) :
    ∃ l, (stepRound b mi s).store = s.store ++ l := by
  unfold stepRound admitLoop
  exact admitGo_store_extends b mi (pendingWeight s.pending) s

theorem stepRound_inflight_le (b : Behavior) (mi : Nat) (s : SState)
    (h : s.inflight.length ≤ mi) :
    (stepRound b mi s).inflight.length ≤ mi := by
  unfold stepRound admitLoop
  dsimp only
  exact le_trans (probeLoop_kept_le _ _ _ _) (admitGo_inflight_le b mi _ s h)

theorem stepRound_sizeSum (b : Behavior) (mi : Nat) (s : SState) :
    sizeSum (stepRound b mi s) = sizeSum s := by
  unfold stepRound admitLoop
  dsimp only
  have h1 := admitGo_sizeSum b mi (pendingWeight s.pending) s
  have h2 := probeLoop_counts b
    (b.clock (admitGo b mi (pendingWeight s.pending) s).ctr)
    (admitGo b mi (pendingWeight s.pending) s).inflight
    ((admitGo b mi (pendingWeight s.pending) s).ctr + 1)
  simp only [sizeSum, List.length_append] at h1 ⊢
  omega

/-- A single pending task whose submission succeeds: the admission loop
launches it, consuming one submission call and two oracle ticks, and
records the fresh in-flight entry at `queued`. -/
theorem adm_single_ok (b : Behavior) (mi : Nat) (hmi : 0 < mi)
    (s : SState) (t : STask) (p : String)
    (hp : s.pending = [t]) (hi : s.inflight = [])
    (hpost : b.post s.ctr ((s.store.get? t.wfRef).getD "") = Except.ok p) :
    admitLoop b mi s =
      { s with
        pending := [],
        inflight := [⟨t, p, b.clock (s.ctr + 1), "queued", b.clock (s.ctr + 1), 0⟩],
        store := s.store ++ [b.postMut s.ctr ((s.store.get? t.wfRef).getD "")],
        ctr := s.ctr + 2, subCount := s.subCount + 1 } := by
  have hlo : launch_one b s.store s.ctr t =
      ⟨s.store ++ [b.postMut s.ctr ((s.store.get? t.wfRef).getD "")], s.ctr + 2,
        .ok ⟨t, p, b.clock (s.ctr + 1), "queued", b.clock (s.ctr + 1), 0⟩⟩ := by
    unfold launch_one
    dsimp only
    rw [hpost]
  have hw : pendingWeight s.pending = (t.max_retries - t.retries) + 1 := by
    simp [hp, pendingWeight, taskWeight]
  unfold admitLoop
  rw [hw]
  unfold admitGo
  rw [hp]
  dsimp only
  rw [if_pos (by rw [hi]; simpa using hmi), hlo]
  dsimp only
  rw [admitGo_nil b mi _ _ rfl, hi]
  simp

/-- One outer-loop round for a single task whose submission succeeds and
whose poll reports `failed`: the task is re-queued with its counter bumped
while budget remains, and otherwise dropped with a terminal `failed`
Result; either way exactly one submission call was consumed. -/
theorem round_pollfail (b : Behavior) (mi : Nat) (hmi : 0 < mi)
    (hpost : ∀ n w, ∃ p, b.post n w = Except.ok p)
    (hchk : ∀ n pid, b.check n pid = Except.ok "failed")
    (s : SState) (t : STask) (hp : s.pending = [t]) (hi : s.inflight = []) :
    (t.retries < t.max_retries →
      (stepRound b mi s).pending = [{ t with retries := t.retries + 1 }] ∧
      (stepRound b mi s).inflight = [] ∧ (stepRound b mi s).done = s.done ∧
      (stepRound b mi s).subCount = s.subCount + 1) ∧
    (¬ t.retries < t.max_retries →
      (stepRound b mi s).pending = [] ∧ (stepRound b mi s).inflight = [] ∧
      (stepRound b mi s).done = s.done ++ [⟨t, none, some "failed"⟩] ∧
      (stepRound b mi s).subCount = s.subCount + 1) := by
  obtain ⟨p, hpost1⟩ := hpost s.ctr ((s.store.get? t.wfRef).getD "")
  have hadm := adm_single_ok b mi hmi s t p hp hi hpost1
  have hstep : stepRound b mi s =
      { admitLoop b mi s with
        pending := (admitLoop b mi s).pending ++
          (probeLoop b (b.clock (admitLoop b mi s).ctr) ((admitLoop b mi s).ctr + 1)
            (admitLoop b mi s).inflight).requeued,
        inflight := (probeLoop b (b.clock (admitLoop b mi s).ctr) ((admitLoop b mi s).ctr + 1)
            (admitLoop b mi s).inflight).kept,
        done := (admitLoop b mi s).done ++
          (probeLoop b (b.clock (admitLoop b mi s).ctr) ((admitLoop b mi s).ctr + 1)
            (admitLoop b mi s).inflight).finished,
        ctr := (probeLoop b (b.clock (admitLoop b mi s).ctr) ((admitLoop b mi s).ctr + 1)
            (admitLoop b mi s).inflight).newCtr,
        requeues := (admitLoop b mi s).requeues +
          (probeLoop b (b.clock (admitLoop b mi s).ctr) ((admitLoop b mi s).ctr + 1)
            (admitLoop b mi s).inflight).requeued.length } := rfl
  rw [hadm] at hstep
  dsimp only at hstep
  set e0 : Entry := ⟨t, p, b.clock (s.ctr + 1), "queued", b.clock (s.ctr + 1), 0⟩ with he0
  have hone : probeOne b (b.clock (s.ctr + 2)) (s.ctr + 3) e0 =
      probeClassify b (b.clock (s.ctr + 2)) (s.ctr + 4) e0 "failed" :=
    probeOne_ok b _ _ e0 "failed" (hchk _ _)
  rw [probeClassify_failed] at hone
  constructor
  · intro hr
    rw [if_pos hr] at hone
    rw [probeLoop_cons_requeue b _ _ _ e0 _ [] hone, probeLoop_nil] at hstep
    rw [hstep]
    simp
  · intro hr
    rw [if_neg hr] at hone
    rw [probeLoop_cons_finish b _ _ _ e0 _ [] hone, probeLoop_nil] at hstep
    rw [hstep]
    simp

/-- One outer-loop round for a single task whose submission succeeds, whose
poll raises, and whose clock jumps 1000 per oracle call: the probe error is
recorded as a non-status, and the hard age ceiling then evicts the entry —
re-queue while budget remains, terminal `timeout` otherwise. -/
theorem round_timeout (b : Behavior) (mi : Nat) (hmi : 0 < mi)
    (hpost : ∀ n w, ∃ p, b.post n w = Except.ok p)
    (hchk : ∀ n pid, ∃ m, b.check n pid = Except.error m)
    (hclk : ∀ n, b.clock n = 1000 * n)
    (s : SState) (t : STask) (hp : s.pending = [t]) (hi : s.inflight = []) :
    (t.retries < t.max_retries →
      (stepRound b mi s).pending = [{ t with retries := t.retries + 1 }] ∧
      (stepRound b mi s).inflight = [] ∧ (stepRound b mi s).done = s.done ∧
      (stepRound b mi s).subCount = s.subCount + 1) ∧
    (¬ t.retries < t.max_retries →
      (stepRound b mi s).pending = [] ∧ (stepRound b mi s).inflight = [] ∧
      (stepRound b mi s).done = s.done ++ [⟨t, none, some "timeout"⟩] ∧
      (stepRound b mi s).subCount = s.subCount + 1) := by
  obtain ⟨p, hpost1⟩ := hpost s.ctr ((s.store.get? t.wfRef).getD "")
  have hadm := adm_single_ok b mi hmi s t p hp hi hpost1
  have hstep : stepRound b mi s =
      { admitLoop b mi s with
        pending := (admitLoop b mi s).pending ++
          (probeLoop b (b.clock (admitLoop b mi s).ctr) ((admitLoop b mi s).ctr + 1)
            (admitLoop b mi s).inflight).requeued,
        inflight := (probeLoop b (b.clock (admitLoop b mi s).ctr) ((admitLoop b mi s).ctr + 1)
            (admitLoop b mi s).inflight).kept,
        done := (admitLoop b mi s).done ++
          (probeLoop b (b.clock (admitLoop b mi s).ctr) ((admitLoop b mi s).ctr + 1)
            (admitLoop b mi s).inflight).finished,
        ctr := (probeLoop b (b.clock (admitLoop b mi s).ctr) ((admitLoop b mi s).ctr + 1)
            (admitLoop b mi s).inflight).newCtr,
        requeues := (admitLoop b mi s).requeues +
          (probeLoop b (b.clock (admitLoop b mi s).ctr) ((admitLoop b mi s).ctr + 1)
            (admitLoop b mi s).inflight).requeued.length } := rfl
  rw [hadm] at hstep
  dsimp only at hstep
  set e0 : Entry := ⟨t, p, b.clock (s.ctr + 1), "queued", b.clock (s.ctr + 1), 0⟩ with he0
  obtain ⟨msg, hchk1⟩ := hchk (s.ctr + 3) e0.pid
  have hone : probeOne b (b.clock (s.ctr + 2)) (s.ctr + 3) e0 =
      probeClassify b (b.clock (s.ctr + 2)) (s.ctr + 4) e0 ("probe-error: " ++ msg) :=
    probeOne_raise b _ _ e0 msg hchk1
  have hage : 300 < b.clock (s.ctr + 2) - e0.ts := by
    have h1 := hclk (s.ctr + 2)
    have h2 := hclk (s.ctr + 1)
    simp only [he0]
    omega
  rw [probeClassify_other_timeout b _ _ e0 _
    (probe_error_ne msg "done" (by decide)) (probe_error_ne msg "failed" (by decide))
    (probe_error_ne msg "unknown" (by decide)) (probe_error_ne msg "running" (by decide))
    (probe_error_ne msg "queued" (by decide)) hage] at hone
  have htask : e0.task = t := rfl
  constructor
  · intro hr
    have hto : timeoutOutcome e0.task = .requeue { t with retries := t.retries + 1 } := by
      rw [htask]
      unfold timeoutOutcome
      rw [if_pos hr]
    rw [hto] at hone
    rw [probeLoop_cons_requeue b _ _ _ e0 _ [] hone, probeLoop_nil] at hstep
    rw [hstep]
    simp
  · intro hr
    have hto : timeoutOutcome e0.task = .finish ⟨t, none, some "timeout"⟩ := by
      rw [htask]
      unfold timeoutOutcome
      rw [if_neg hr]
    rw [hto] at hone
    rw [probeLoop_cons_finish b _ _ _ e0 _ [] hone, probeLoop_nil] at hstep
    rw [hstep]
    simp

/-- When every submission raises, the admission loop drains the whole
pending queue in one outer round: nothing reaches the in-flight set, each
task is resubmitted until its budget runs out and then dropped with a
terminal error Result, consuming `pendingWeight` submission calls. -/
theorem adm_drain_fail (b : Behavior) (mi : Nat) (msg : String) (hmi : 0 < mi)
    (hpost : ∀ n w, b.post n w = Except.error msg) :
    ∀ (w : Nat) (s : SState), pendingWeight s.pending ≤ w → s.inflight = [] →
      (admitGo b mi w s).pending = [] ∧ (admitGo b mi w s).inflight = [] ∧
      (admitGo b mi w s).done.length = s.done.length + s.pending.length ∧
      (admitGo b mi w s).subCount = s.subCount + pendingWeight s.pending ∧
      (∀ r ∈ (admitGo b mi w s).done, r ∈ s.done ∨ r.error = some msg) := by
  intro w
  induction w with
  | zero =>
    intro s hw hi
    have hp : s.pending = [] := by
      cases hps : s.pending with
      | nil => rfl
      | cons t rest =>
        rw [hps] at hw
        simp [pendingWeight, taskWeight] at hw
    rw [admitGo_nil b mi 0 s hp]
    simp [hp, hi, pendingWeight]
    exact fun r hr => Or.inl hr
  | succ w ih =>
    intro s hw hi
    unfold admitGo
    cases hps : s.pending with
    | nil =>
      simp [hps, hi, pendingWeight]
      exact fun r hr => Or.inl hr
    | cons t rest =>
      dsimp only
      have hlo : (launch_one b s.store s.ctr t).outcome = Except.error msg := by
        unfold launch_one
        dsimp only
        rw [hpost]
      rw [if_pos (by rw [hi]; simpa using hmi), hlo]
      dsimp only
      by_cases hr : t.retries < t.max_retries
      · rw [if_pos hr]
        have hw2 : pendingWeight (rest ++ [{ t with retries := t.retries + 1 }]) ≤ w := by
          rw [hps] at hw
          simp [pendingWeight, taskWeight] at hw ⊢
          omega
        obtain ⟨c1, c2, c3, c4, c5⟩ := ih
          { s with
            pending := rest ++ [{ t with retries := t.retries + 1 }],
            store := (launch_one b s.store s.ctr t).newStore,
            ctr := (launch_one b s.store s.ctr t).newCtr,
            subCount := s.subCount + 1, requeues := s.requeues + 1 }
          (by simpa using hw2) (by simpa using hi)
        refine ⟨c1, c2, ?_, ?_, ?_⟩
        · rw [c3]
          simp [hps]
        · rw [c4]
          simp [hps, pendingWeight, taskWeight]
          omega
        · intro r hr2
          exact c5 r hr2
      · rw [if_neg hr]
        have hw2 : pendingWeight rest ≤ w := by
          rw [hps] at hw
          simp [pendingWeight, taskWeight] at hw ⊢
          omega
        obtain ⟨c1, c2, c3, c4, c5⟩ := ih
          { s with
            pending := rest,
            done := s.done ++ [⟨t, none, some msg⟩],
            store := (launch_one b s.store s.ctr t).newStore,
            ctr := (launch_one b s.store s.ctr t).newCtr,
            subCount := s.subCount + 1 }
          (by simpa using hw2) (by simpa using hi)
        refine ⟨c1, c2, ?_, ?_, ?_⟩
        · rw [c3]
          simp [hps]
          omega
        · rw [c4]
          have hr0 : t.max_retries - t.retries = 0 := by omega
          simp [hps, pendingWeight, taskWeight, hr0]
          omega
        · intro r hr2
          rcases c5 r hr2 with hin | herr
          · simp at hin
            rcases hin with hin | hin
            · left; exact hin
            · right; rw [hin]
          · right; exact herr

/-- A single pending task under an always-raising submission endpoint: the
admission loop resubmits it until the budget runs out, then drops it with a
terminal error Result naming the task, having consumed exactly
`budget + 1` submission calls. -/
theorem adm_single_fail (b : Behavior) (mi : Nat) (msg : String) (hmi : 0 < mi)
    (hpost : ∀ n w, b.post n w = Except.error msg) :
    ∀ (j : Nat) (s : SState) (t : STask), s.pending = [t] → s.inflight = [] →
      t.max_retries - t.retries = j → t.retries ≤ t.max_retries →
      (admitLoop b mi s).pending = [] ∧ (admitLoop b mi s).inflight = [] ∧
      (admitLoop b mi s).done =
        s.done ++ [⟨⟨t.name, t.wfRef, t.max_retries, t.max_retries⟩, none, some msg⟩] ∧
      (admitLoop b mi s).subCount = s.subCount + (j + 1) := by
  intro j
  induction j with
  | zero =>
    intro s t hp hi hj hle
    have hw : pendingWeight s.pending = 0 + 1 := by
      simp [hp, pendingWeight, taskWeight]
      omega
    unfold admitLoop
    rw [hw]
    unfold admitGo
    rw [hp]
    dsimp only
    have hlo : (launch_one b s.store s.ctr t).outcome = Except.error msg := by
      unfold launch_one
      dsimp only
      rw [hpost]
    rw [if_pos (by rw [hi]; simpa using hmi), hlo]
    dsimp only
    rw [if_neg (by omega : ¬ t.retries < t.max_retries)]
    rw [admitGo_nil b mi _ _ rfl]
    have ht : t = ⟨t.name, t.wfRef, t.max_retries, t.max_retries⟩ := by
      cases t
      simp_all
      omega
    exact ⟨rfl, hi, by rw [← ht], rfl⟩
  | succ j ih =>
    intro s t hp hi hj hle
    have hw : pendingWeight s.pending = (j + 1) + 1 := by
      simp [hp, pendingWeight, taskWeight]
      omega
    unfold admitLoop
    rw [hw]
    unfold admitGo
    rw [hp]
    dsimp only
    have hlo : (launch_one b s.store s.ctr t).outcome = Except.error msg := by
      unfold launch_one
      dsimp only
      rw [hpost]
    rw [if_pos (by rw [hi]; simpa using hmi), hlo]
    dsimp only
    rw [if_pos (by omega : t.retries < t.max_retries)]
    have hfold : admitGo b mi (j + 1)
        { s with
          pending := [] ++ [{ t with retries := t.retries + 1 }],
          store := (launch_one b s.store s.ctr t).newStore,
          ctr := (launch_one b s.store s.ctr t).newCtr,
          subCount := s.subCount + 1, requeues := s.requeues + 1 } =
        admitLoop b mi
        { s with
          pending := [] ++ [{ t with retries := t.retries + 1 }],
          store := (launch_one b s.store s.ctr t).newStore,
          ctr := (launch_one b s.store s.ctr t).newCtr,
          subCount := s.subCount + 1, requeues := s.requeues + 1 } := by
      unfold admitLoop
      congr 1
      simp [pendingWeight, taskWeight]
      omega
    rw [hfold]
    obtain ⟨c1, c2, c3, c4⟩ := ih
      { s with
        pending := [] ++ [{ t with retries := t.retries + 1 }],
        store := (launch_one b s.store s.ctr t).newStore,
        ctr := (launch_one b s.store s.ctr t).newCtr,
        subCount := s.subCount + 1, requeues := s.requeues + 1 }
      { t with retries := t.retries + 1 } (by simp) (by simpa using hi)
      (by simp; omega) (by simp; omega)
    refine ⟨c1, c2, ?_, ?_⟩
    · rw [c3]
    · rw [c4]
      simp
      omega

theorem initState_single (t0 : Task0) :
    initState [t0] =
      ⟨[⟨t0.name, 0, t0.retries, t0.max_retries⟩], [], [], [t0.workflow], 0, 0, 0⟩ := rfl

/-- Full run of a single task under submit-ok / poll-`failed` behavior:
after `budget + 1` cycles the loop returns with one terminal `failed`
Result carrying the task's name, having made `budget + 1` submissions. -/
theorem run_pollfail (b : Behavior) (mi : Nat) (hmi : 0 < mi)
    (hpost : ∀ n w, ∃ p, b.post n w = Except.ok p)
    (hchk : ∀ n pid, b.check n pid = Except.ok "failed") :
    ∀ (j : Nat) (s : SState) (t : STask), s.pending = [t] → s.inflight = [] →
      t.max_retries - t.retries = j → t.retries ≤ t.max_retries →
      ∃ sf, runAux b mi (j + 2) s = some sf ∧ sf.pending = [] ∧ sf.inflight = [] ∧
        sf.done = s.done ++
          [⟨⟨t.name, t.wfRef, t.max_retries, t.max_retries⟩, none, some "failed"⟩] ∧
        sf.subCount = s.subCount + (j + 1) := by
  intro j
  induction j with
  | zero =>
    intro s t hp hi hj hle
    obtain ⟨_, h2⟩ := round_pollfail b mi hmi hpost hchk s t hp hi
    obtain ⟨d1, d2, d3, d4⟩ := h2 (by omega)
    have hne : ¬ (s.pending = [] ∧ s.inflight = []) := by simp [hp]
    have ht : t = ⟨t.name, t.wfRef, t.max_retries, t.max_retries⟩ := by
      cases t
      simp_all
      omega
    refine ⟨stepRound b mi s, ?_, d1, d2, by rw [d3, ← ht], by rw [d4]⟩
    show runAux b mi 2 s = _
    unfold runAux
    rw [if_neg hne]
    unfold runAux
    rw [if_pos ⟨d1, d2⟩]
  | succ j ih =>
    intro s t hp hi hj hle
    obtain ⟨h1, _⟩ := round_pollfail b mi hmi hpost hchk s t hp hi
    obtain ⟨d1, d2, d3, d4⟩ := h1 (by omega)
    obtain ⟨sf, e1, e2, e3, e4, e5⟩ := ih (stepRound b mi s)
      { t with retries := t.retries + 1 } d1 d2 (by simp; omega) (by simp; omega)
    have hne : ¬ (s.pending = [] ∧ s.inflight = []) := by simp [hp]
    refine ⟨sf, ?_, e2, e3, ?_, ?_⟩
    · show runAux b mi (j + 1 + 2) s = some sf
      unfold runAux
      rw [if_neg hne]
      exact e1
    · rw [e4, d3]
    · rw [e5, d4]
      omega

/-- Full run of a single task under submit-ok / poll-raising behavior with
a divergent clock: the probe errors never consume the budget directly, but
the hard age ceiling evicts each attempt, and after `budget + 1` cycles the
loop returns one terminal `timeout` Result. -/
theorem run_probe_raise (b : Behavior) (mi : Nat) (hmi : 0 < mi)
    (hpost : ∀ n w, ∃ p, b.post n w = Except.ok p)
    (hchk : ∀ n pid, ∃ m, b.check n pid = Except.error m)
    (hclk : ∀ n, b.clock n = 1000 * n) :
    ∀ (j : Nat) (s : SState) (t : STask), s.pending = [t] → s.inflight = [] →
      t.max_retries - t.retries = j → t.retries ≤ t.max_retries →
      ∃ sf, runAux b mi (j + 2) s = some sf ∧ sf.pending = [] ∧ sf.inflight = [] ∧
        sf.done = s.done ++
          [⟨⟨t.name, t.wfRef, t.max_retries, t.max_retries⟩, none, some "timeout"⟩] ∧
        sf.subCount = s.subCount + (j + 1) := by
  intro j
  induction j with
  | zero =>
    intro s t hp hi hj hle
    obtain ⟨_, h2⟩ := round_timeout b mi hmi hpost hchk hclk s t hp hi
    obtain ⟨d1, d2, d3, d4⟩ := h2 (by omega)
    have hne : ¬ (s.pending = [] ∧ s.inflight = []) := by simp [hp]
    have ht : t = ⟨t.name, t.wfRef, t.max_retries, t.max_retries⟩ := by
      cases t
      simp_all
      omega
    refine ⟨stepRound b mi s, ?_, d1, d2, by rw [d3, ← ht], by rw [d4]⟩
    show runAux b mi 2 s = _
    unfold runAux
    rw [if_neg hne]
    unfold runAux
    rw [if_pos ⟨d1, d2⟩]
  | succ j ih =>
    intro s t hp hi hj hle
    obtain ⟨h1, _⟩ := round_timeout b mi hmi hpost hchk hclk s t hp hi
    obtain ⟨d1, d2, d3, d4⟩ := h1 (by omega)
    obtain ⟨sf, e1, e2, e3, e4, e5⟩ := ih (stepRound b mi s)
      { t with retries := t.retries + 1 } d1 d2 (by simp; omega) (by simp; omega)
    have hne : ¬ (s.pending = [] ∧ s.inflight = []) := by simp [hp]
    refine ⟨sf, ?_, e2, e3, ?_, ?_⟩
    · show runAux b mi (j + 1 + 2) s = some sf
      unfold runAux
      rw [if_neg hne]
      exact e1
    · rw [e4, d3]
    · rw [e5, d4]
      omega

/-- One outer round under an always-raising submission endpoint, starting
with nothing in flight: the whole pending queue is converted to terminal
error Results. -/
theorem round_drain (b : Behavior) (mi : Nat) (msg : String) (hmi : 0 < mi)
    (hpost : ∀ n w, b.post n w = Except.error msg)
    (s : SState) (hi : s.inflight = []) :
    (stepRound b mi s).pending = [] ∧ (stepRound b mi s).inflight = [] ∧
    (stepRound b mi s).done.length = s.done.length + s.pending.length ∧
    (∀ r ∈ (stepRound b mi s).done, r ∈ s.done ∨ r.error = some msg) := by
  obtain ⟨c1, c2, c3, c4, c5⟩ :=
    adm_drain_fail b mi msg hmi hpost (pendingWeight s.pending) s le_rfl hi
  unfold stepRound admitLoop
  dsimp only
  rw [c2, probeLoop_nil]
  dsimp only
  exact ⟨by simpa using c1, rfl, by simpa using c3, by simpa using c5⟩

/-- When the admission phase leaves nothing in flight, the probe phase of
the round is a no-op on the task-visible fields. -/
theorem stepRound_of_no_inflight (b : Behavior) (mi : Nat) (s : SState)
    (h : (admitLoop b mi s).inflight = []) :
    (stepRound b mi s).pending = (admitLoop b mi s).pending ∧
    (stepRound b mi s).inflight = [] ∧
    (stepRound b mi s).done = (admitLoop b mi s).done ∧
    (stepRound b mi s).subCount = (admitLoop b mi s).subCount := by
  unfold stepRound
  dsimp only
  rw [h, probeLoop_nil]
  simp

theorem initState_pending_length (ts : List Task0) :
    (initState ts).pending.length = ts.length := by
  simp [initState]

theorem runAux_store_extends (b : Behavior) (mi : Nat) :
    ∀ (fuel : Nat) (s s' : SState), runAux b mi fuel s = some s' →
      ∃ l, s'.store = s.store ++ l := by
  intro fuel
  induction fuel with
  | zero => intro s s' h; exact absurd h (by simp [runAux])
  | succ fuel ih =>
    intro s s' h
    unfold runAux at h
    by_cases hc : s.pending = [] ∧ s.inflight = []
    · rw [if_pos hc] at h
      exact ⟨[], by simp [← Option.some_inj.mp h]⟩
    · rw [if_neg hc] at h
      obtain ⟨l1, hl1⟩ := ih (stepRound b mi s) s' h
      obtain ⟨l2, hl2⟩ := stepRound_store_extends b mi s
      exact ⟨l2 ++ l1, by rw [hl1, hl2, List.append_assoc]⟩

end Sched

/-! Claim theorems. -/

/-- C1 counterexample: a poll in which every queue-listing call raises, while
the history record carries a non-empty `error` marker, is reported as
`failed` — not degraded to `unknown` — contradicting the claim that a poll
whose read calls fail is never reported as `failed`. -/
theorem c1_counterexample :
    CAPI.check_status gRaise (some recErrMark) "p" = "failed" := by decide

/-- C1 (amended): when the queue listing fails and the history lookup yields
no record, the poll degrades to `unknown`; a poll whose status probe raises
leaves the task in flight with its retry budget untouched while the entry
is within the hard age ceiling; but when the history lookup succeeds with a
record bearing error markers, a failing queue re-check reports `failed`
rather than `unknown`. -/
theorem c1_amended_read_failures :
    (∀ (g : Nat → Except Unit CAPI.QueueData) (pid : String),
      g 0 = Except.error () → CAPI.check_status g none pid = "unknown") ∧
    (∀ (b : Sched.Behavior) (now k : Nat) (e : Sched.Entry) (msg : String),
      b.check k e.pid = Except.error msg → now - e.ts ≤ 300 →
      ∃ e2, Sched.probeOne b now k e = (.keep e2, k + 1) ∧ e2.task = e.task) ∧
    (∀ (g : Nat → Except Unit CAPI.QueueData) (rec : CAPI.HRec) (pid : String),
      g 0 = Except.error () → g 1 = Except.error () → rec.status = none →
      rec.errField = CAPI.F3.presentNonEmpty →
      CAPI.check_status g (some rec) pid = "failed") := by
  refine ⟨?_, ?_, ?_⟩
  · intro g pid h0
    unfold CAPI.check_status
    rw [h0]
  · intro b now k e msg hc hage
    rw [Sched.probeOne_raise b now k e msg hc]
    obtain ⟨e2, he, ht, _⟩ := Sched.probeClassify_other b now (k + 1) e _
      (Sched.probe_error_ne msg "done" (by decide))
      (Sched.probe_error_ne msg "failed" (by decide))
      (Sched.probe_error_ne msg "unknown" (by decide))
      (Sched.probe_error_ne msg "running" (by decide))
      (Sched.probe_error_ne msg "queued" (by decide)) hage
    exact ⟨e2, he, ht⟩
  · intro g rec pid h0 h1 hst herr
    unfold CAPI.check_status
    rw [h0]
    dsimp only
    unfold CAPI.extract_status_fields
    rw [hst, herr]
    simp [CAPI.failTokens, CAPI.doneTokens, CAPI.F3.truthy, h1]

/-- C1 amended witness at concrete inputs. -/
theorem c1_amended_witness :
    CAPI.check_status gRaise none "p" = "unknown" ∧
    (∃ e2, Sched.probeOne bProbeRaise 0 0 eStale = (.keep e2, 1) ∧ e2.task = eStale.task) ∧
    CAPI.check_status gRaise (some recErrMark) "q" = "failed" :=
  ⟨c1_amended_read_failures.1 gRaise "p" rfl,
   c1_amended_read_failures.2.1 bProbeRaise 0 0 eStale "boom" rfl (by decide),
   c1_amended_read_failures.2.2 gRaise recErrMark "q" rfl rfl rfl rfl⟩

/-- C2: when the first queue listing succeeds, a handle matched in the
running bucket resolves to `running`, and one matched in the pending bucket
(and not the running one) resolves to `queued`, whatever the historical
record holds — queue membership is authoritative over history. -/
theorem c2_queue_membership_authoritative
    (g : Nat → Except Unit CAPI.QueueData) (q : CAPI.QueueData)
    (hist : Option CAPI.HRec) (pid : String) (hq : g 0 = Except.ok q) :
    (CAPI.matchBucket (CAPI.runningBucket q) (CAPI.normId (some pid)) = true →
      CAPI.check_status g hist pid = "running") ∧
    (CAPI.matchBucket (CAPI.runningBucket q) (CAPI.normId (some pid)) = false →
      CAPI.matchBucket (CAPI.pendingBucket q) (CAPI.normId (some pid)) = true →
      CAPI.check_status g hist pid = "queued") := by
  constructor
  · intro h1
    unfold CAPI.check_status
    rw [hq]
    dsimp only
    unfold CAPI.id_in_queue
    rw [if_pos h1]
  · intro h1 h2
    unfold CAPI.check_status
    rw [hq]
    dsimp only
    unfold CAPI.id_in_queue
    rw [if_neg (by simp [h1]), if_pos h2]

/-- C2 witness at a concrete queue snapshot (running bucket holds the pair
`["abc", …]`, pending bucket a bare `"xyz"`), with a stale `error`-marked
history record present. -/
theorem c2_witness :
    (fun _ => Except.ok qdRun : Nat → Except Unit CAPI.QueueData) 0 = Except.ok qdRun ∧
    CAPI.matchBucket (CAPI.runningBucket qdRun) (CAPI.normId (some "abc")) = true ∧
    CAPI.check_status (fun _ => Except.ok qdRun) (some recErrMark) "abc" = "running" ∧
    CAPI.check_status (fun _ => Except.ok qdRun) (some recErrMark) "xyz" = "queued" :=
  ⟨rfl, by decide,
   (c2_queue_membership_authoritative (fun _ => Except.ok qdRun) qdRun
     (some recErrMark) "abc" rfl).1 (by decide),
   (c2_queue_membership_authoritative (fun _ => Except.ok qdRun) qdRun
     (some recErrMark) "xyz" rfl).2 (by decide) (by decide)⟩

/-- C3 counterexample: a history record `{"outputs": {}}` with no status
field, for a handle absent from both queue buckets, resolves to `unknown`
in `check_status`, not `done` as claimed. -/
theorem c3_counterexample :
    CAPI.check_status gEmpty (some recEmptyOut) "p" = "unknown" ∧
    CAPI.check_status gEmpty (some recEmptyOut) "p" ≠ "done" := by
  constructor <;> decide

/-- C3 (amended): for a record with no status field and no error markers on
a handle absent from the queue, `check_status` treats only a non-empty
outputs field as completion — a present-but-empty outputs field yields
`unknown`; the scheduler's separate completion probe `_check_done`, by
contrast, treats any present `outputs` key (even empty) as completion. -/
theorem c3_amended_empty_outputs :
    (∀ (g : Nat → Except Unit CAPI.QueueData) (q : CAPI.QueueData)
        (rec : CAPI.HRec) (pid : String),
      (∀ n, g n = Except.ok q) → CAPI.id_in_queue q pid = none →
      rec.status = none → rec.errField.truthy = false → rec.nodeErrors.truthy = false →
      (rec.outputs = CAPI.F3.presentEmpty → CAPI.check_status g (some rec) pid = "unknown") ∧
      (rec.outputs = CAPI.F3.presentNonEmpty → CAPI.check_status g (some rec) pid = "done")) ∧
    (∀ (rec : CAPI.CDRecord) (qres : Except Unit CAPI.QueueData) (pid : String),
      rec.status = none → rec.outputsKey = true →
      CAPI.check_done (Except.ok (some rec)) qres pid = (true, none)) := by
  constructor
  · intro g q rec pid hg habs hst he hn
    constructor
    · intro ho
      unfold CAPI.check_status CAPI.extract_status_fields
      simp only [hg, habs, hst, he, hn, ho]
      simp [CAPI.failTokens, CAPI.doneTokens, CAPI.F3.truthy]
    · intro ho
      unfold CAPI.check_status CAPI.extract_status_fields
      simp only [hg, habs, hst, he, hn, ho]
      simp [CAPI.failTokens, CAPI.doneTokens, CAPI.F3.truthy]
  · intro rec qres pid hst hout
    unfold CAPI.check_done
    dsimp only
    rw [hst, hout]
    simp

/-- C3 amended witness: a non-empty outputs field does resolve to `done` in
`check_status`, and `_check_done` reports completion for a bare present
outputs key even when its own queue re-check would raise. -/
theorem c3_amended_witness :
    CAPI.check_status gEmpty (some recFullOut) "p" = "done" ∧
    CAPI.check_done (Except.ok (some cdOutRec)) (Except.error ()) "p" = (true, none) :=
  ⟨(c3_amended_empty_outputs.1 gEmpty qdEmpty recFullOut "p" (fun _ => rfl)
      (by decide) rfl rfl rfl).2 rfl,
   c3_amended_empty_outputs.2 cdOutRec (Except.error ()) "p" rfl rfl⟩

/-- C4: a single task whose every attempt deterministically fails makes
exactly `max_retries + 1` submission attempts before the run returns a
terminal failure Result carrying an error and the task's name — whether
every poll reports `failed` (first part) or every submission itself raises
(second part). -/
theorem c4_retry_budget (b : Sched.Behavior) (mi : Nat) (name wf msg : String)
    (m : Nat) (hmi : 0 < mi) :
    ((∀ n w, ∃ p, b.post n w = Except.ok p) →
      (∀ n pid, b.check n pid = Except.ok "failed") →
      ∃ sf, Sched.runAux b mi (m + 2) (Sched.initState [⟨name, wf, 0, m⟩]) = some sf ∧
        sf.subCount = m + 1 ∧ sf.done = [⟨⟨name, 0, m, m⟩, none, some "failed"⟩] ∧
        sf.pending = [] ∧ sf.inflight = []) ∧
    ((∀ n w, b.post n w = Except.error msg) →
      ∃ sf, Sched.runAux b mi 2 (Sched.initState [⟨name, wf, 0, m⟩]) = some sf ∧
        sf.subCount = m + 1 ∧ sf.done = [⟨⟨name, 0, m, m⟩, none, some msg⟩] ∧
        sf.pending = [] ∧ sf.inflight = []) := by
  constructor
  · intro hpost hchk
    obtain ⟨sf, e1, e2, e3, e4, e5⟩ := Sched.run_pollfail b mi hmi hpost hchk m
      (Sched.initState [⟨name, wf, 0, m⟩]) ⟨name, 0, 0, m⟩ rfl rfl (by simp) (by simp)
    refine ⟨sf, e1, ?_, ?_, e2, e3⟩
    · rw [e5]
      simp [Sched.initState]
    · rw [e4]
      rfl
  · intro hpost
    obtain ⟨c1, c2, c3, c4⟩ := Sched.adm_single_fail b mi msg hmi hpost m
      (Sched.initState [⟨name, wf, 0, m⟩]) ⟨name, 0, 0, m⟩ rfl rfl (by simp) (by simp)
    obtain ⟨d1, d2, d3, d4⟩ :=
      Sched.stepRound_of_no_inflight b mi (Sched.initState [⟨name, wf, 0, m⟩]) c2
    have hne : ¬ ((Sched.initState [(⟨name, wf, 0, m⟩ : Sched.Task0)]).pending = [] ∧
        (Sched.initState [(⟨name, wf, 0, m⟩ : Sched.Task0)]).inflight = []) := by
      rw [Sched.initState_single]
      simp
    refine ⟨Sched.stepRound b mi (Sched.initState [⟨name, wf, 0, m⟩]), ?_, ?_, ?_, ?_, d2⟩
    · unfold Sched.runAux
      rw [if_neg hne]
      unfold Sched.runAux
      rw [if_pos ⟨by rw [d1, c1], d2⟩]
    · rw [d4, c4]
      simp [Sched.initState]
    · rw [d3, c3]
      rfl
    · rw [d1, c1]

/-- C4 witness: both failure modes at budget 2 and ceiling 4. -/
theorem c4_witness :
    (0 : Nat) < 4 ∧
    (∃ sf, Sched.runAux bPollFail 4 4 (Sched.initState [⟨"tk", "wf", 0, 2⟩]) = some sf ∧
      sf.subCount = 3 ∧ sf.done = [⟨⟨"tk", 0, 2, 2⟩, none, some "failed"⟩] ∧
      sf.pending = [] ∧ sf.inflight = []) ∧
    (∃ sf, Sched.runAux bSubRaise 4 2 (Sched.initState [⟨"tk", "wf", 0, 2⟩]) = some sf ∧
      sf.subCount = 3 ∧ sf.done = [⟨⟨"tk", 0, 2, 2⟩, none, some "boom"⟩] ∧
      sf.pending = [] ∧ sf.inflight = []) :=
  ⟨by decide,
   (c4_retry_budget bPollFail 4 "tk" "wf" "boom" 2 (by decide)).1
     (fun n w => ⟨"pid1", rfl⟩) (fun n pid => rfl),
   (c4_retry_budget bSubRaise 4 "tk" "wf" "boom" 2 (by decide)).2 (fun n w => rfl)⟩

/-- C5: with a positive concurrency ceiling, the number of in-flight
entries never exceeds the ceiling at any tick of the loop. -/
theorem c5_bounded_inflight (b : Sched.Behavior) (mi : Nat) (ts : List Sched.Task0)
    (n : Nat) (hmi : 0 < mi) :
    ((Sched.stepRound b mi)^[n] (Sched.initState ts)).inflight.length ≤ mi := by
  induction n with
  | zero => simp [Sched.initState]
  | succ n ih =>
    rw [Function.iterate_succ_apply']
    exact Sched.stepRound_inflight_le b mi _ ih

/-- C5 witness: three tasks under ceiling 2, after three ticks. -/
theorem c5_witness :
    (0 : Nat) < 2 ∧
    ((Sched.stepRound bUnknown 2)^[3]
      (Sched.initState [⟨"a", "w", 0, 2⟩, ⟨"b", "w", 0, 2⟩, ⟨"c", "w", 0, 2⟩])).inflight.length ≤ 2 :=
  ⟨by decide,
   c5_bounded_inflight bUnknown 2 [⟨"a", "w", 0, 2⟩, ⟨"b", "w", 0, 2⟩, ⟨"c", "w", 0, 2⟩] 3 (by decide)⟩

/-- C6: an in-flight entry observed `unknown` whose time since the last
recorded status change exceeds the 30-unit unknown-timeout is removed from
the in-flight set and yields a terminal success Result (no error), so that
handle is never polled again. -/
theorem c6_unknown_promotion (b : Sched.Behavior) (now k : Nat) (e : Sched.Entry)
    (hchk : b.check k e.pid = Except.ok "unknown") (ht : 30 < now - e.last_change) :
    Sched.probeOne b now k e = (.finish ⟨e.task, some Sched.RVal.noOutput, none⟩, k + 1) ∧
    Sched.probeLoop b now k [e] =
      ⟨[], [⟨e.task, some Sched.RVal.noOutput, none⟩], [], k + 1⟩ := by
  have h1 : Sched.probeOne b now k e =
      (.finish ⟨e.task, some Sched.RVal.noOutput, none⟩, k + 1) := by
    rw [Sched.probeOne_ok b now k e _ hchk,
      Sched.probeClassify_unknown_promote b now (k + 1) e ht]
  exact ⟨h1, by rw [Sched.probeLoop_cons_finish b now k (k + 1) e _ [] h1, Sched.probeLoop_nil]⟩

/-- C6 witness: a concrete entry stuck at `unknown` for 100 time units. -/
theorem c6_witness :
    bUnknown.check 0 eStale.pid = Except.ok "unknown" ∧ 30 < 100 - eStale.last_change ∧
    Sched.probeOne bUnknown 100 0 eStale =
      (.finish ⟨eStale.task, some Sched.RVal.noOutput, none⟩, 1) :=
  ⟨rfl, by decide, (c6_unknown_promotion bUnknown 100 0 eStale rfl (by decide)).1⟩

/-- C7: the run never lets a remote failure escape as an exception — with
every submission call raising, the run still returns, with one terminal
error Result per task; and with submissions succeeding but every poll
raising (clock advancing 1000 per call), probe errors and the hard age
ceiling convert the task into re-queues and finally a terminal `timeout`
Result.  Every `try`-guarded call site of the source is an explicit match
in the embedding, so the step function is total for every behavior. -/
theorem c7_no_uncaught_exceptions (b : Sched.Behavior) (mi : Nat) (msg : String)
    (hmi : 0 < mi) :
    ((∀ n w, b.post n w = Except.error msg) → ∀ ts : List Sched.Task0,
      ∃ sf, Sched.runAux b mi 2 (Sched.initState ts) = some sf ∧
        sf.pending = [] ∧ sf.inflight = [] ∧ sf.done.length = ts.length ∧
        ∀ r ∈ sf.done, r.error = some msg) ∧
    ((∀ n w, ∃ p, b.post n w = Except.ok p) →
      (∀ n pid, ∃ m2, b.check n pid = Except.error m2) →
      (∀ n, b.clock n = 1000 * n) → ∀ (name wf : String) (m : Nat),
      ∃ sf, Sched.runAux b mi (m + 2) (Sched.initState [⟨name, wf, 0, m⟩]) = some sf ∧
        sf.pending = [] ∧ sf.inflight = [] ∧
        sf.done = [⟨⟨name, 0, m, m⟩, none, some "timeout"⟩]) := by
  constructor
  · intro hpost ts
    by_cases hts : (Sched.initState ts).pending = []
    · refine ⟨Sched.initState ts, ?_, hts, rfl, ?_, ?_⟩
      · unfold Sched.runAux
        rw [if_pos ⟨hts, rfl⟩]
      · have hlen := Sched.initState_pending_length ts
        rw [hts] at hlen
        simp [Sched.initState, ← hlen]
      · intro r hr
        exact absurd hr (by simp [Sched.initState])
    · obtain ⟨d1, d2, d3, d4⟩ := Sched.round_drain b mi msg hmi hpost (Sched.initState ts) rfl
      refine ⟨Sched.stepRound b mi (Sched.initState ts), ?_, d1, d2, ?_, ?_⟩
      · unfold Sched.runAux
        rw [if_neg (by simp [hts])]
        unfold Sched.runAux
        rw [if_pos ⟨d1, d2⟩]
      · rw [d3]
        simp [Sched.initState_pending_length, Sched.initState]
      · intro r hr
        rcases d4 r hr with h | h
        · exact absurd h (by simp [Sched.initState])
        · exact h
  · intro hpost hchk hclk name wf m
    obtain ⟨sf, e1, e2, e3, e4, e5⟩ := Sched.run_probe_raise b mi hmi hpost hchk hclk m
      (Sched.initState [⟨name, wf, 0, m⟩]) ⟨name, 0, 0, m⟩ rfl rfl (by simp) (by simp)
    refine ⟨sf, e1, e2, e3, ?_⟩
    rw [e4]
    rfl

/-- C7 witness: all-raising submissions on one task, and raising polls with
a divergent clock on one task with budget 2. -/
theorem c7_witness :
    (0 : Nat) < 4 ∧
    (∃ sf, Sched.runAux bSubRaise 4 2 (Sched.initState [tOneRetry]) = some sf ∧
      sf.pending = [] ∧ sf.inflight = [] ∧ sf.done.length = [tOneRetry].length ∧
      ∀ r ∈ sf.done, r.error = some "boom") ∧
    (∃ sf, Sched.runAux bProbeRaiseClock 4 (2 + 2) (Sched.initState [⟨"n", "w", 0, 2⟩]) = some sf ∧
      sf.pending = [] ∧ sf.inflight = [] ∧
      sf.done = [⟨⟨"n", 0, 2, 2⟩, none, some "timeout"⟩]) :=
  ⟨by decide,
   (c7_no_uncaught_exceptions bSubRaise 4 "boom" (by decide)).1 (fun n w => rfl) [tOneRetry],
   (c7_no_uncaught_exceptions bProbeRaiseClock 4 "boom" (by decide)).2
     (fun n w => ⟨"p", rfl⟩) (fun n pid => ⟨"net", rfl⟩) (fun n => rfl) "n" "w" 2⟩

/-- C8 counterexample: after one round in which the only task's submission
raised once and it was re-queued, pending + inflight + done = 1 while
total-submitted + retries-issued = 2, refuting the claimed equation. -/
theorem c8_counterexample :
    ¬ ((Sched.stepRound bSubRaise 4 (Sched.initState [tOneRetry])).pending.length +
       (Sched.stepRound bSubRaise 4 (Sched.initState [tOneRetry])).inflight.length +
       (Sched.stepRound bSubRaise 4 (Sched.initState [tOneRetry])).done.length =
       1 + (Sched.stepRound bSubRaise 4 (Sched.initState [tOneRetry])).requeues) := by
  decide

/-- C8 (amended): at every tick, pending + in-flight + terminal counts sum
to exactly the number of tasks originally submitted — a retry moves its
task back to pending rather than adding an entry, so no task silently
disappears. -/
theorem c8_amended_conservation (b : Sched.Behavior) (mi : Nat)
    (ts : List Sched.Task0) (n : Nat) :
    Sched.sizeSum ((Sched.stepRound b mi)^[n] (Sched.initState ts)) = ts.length := by
  induction n with
  | zero =>
    simp [Sched.sizeSum, Sched.initState]
  | succ n ih =>
    rw [Function.iterate_succ_apply', Sched.stepRound_sizeSum]
    exact ih

/-- C9 counterexample: after one round in which the status probe raised,
the in-flight entry's `last_status` is the literal `"probe-error: boom"`,
which is not one of the five normalized states. -/
theorem c9_counterexample :
    (Sched.stepRound bProbeRaise 4 (Sched.initState [tTwoRetry])).inflight.map
      Sched.Entry.last_status = ["probe-error: boom"] ∧
    ¬ ("probe-error: boom" ∈ Sched.fiveStates) := by
  constructor <;> decide

/-- C9 (amended): provided every status probe call returns normally with
one of the five normalized states, every in-flight entry's `last_status`
lies in that set at every tick; a tick whose probe call raises instead
stores the distinct `"probe-error: …"` marker string in `last_status`. -/
theorem c9_amended_last_status (b : Sched.Behavior) (mi : Nat) (ts : List Sched.Task0)
    (hfive : ∀ n p, ∃ st, b.check n p = Except.ok st ∧ st ∈ Sched.fiveStates) :
    (∀ n, ∀ e ∈ ((Sched.stepRound b mi)^[n] (Sched.initState ts)).inflight,
      e.last_status ∈ Sched.fiveStates) ∧
    (∀ (b2 : Sched.Behavior) (now k : Nat) (e e2 : Sched.Entry) (msg : String),
      b2.check k e.pid = Except.error msg →
      (Sched.probeOne b2 now k e).1 = Sched.ProbeOut.keep e2 →
      e2.last_status = "probe-error: " ++ msg) := by
  constructor
  · intro n
    cases n with
    | zero =>
      intro e he
      exact absurd he (by simp [Sched.initState])
    | succ n =>
      rw [Function.iterate_succ_apply']
      intro e he
      exact Sched.probeLoop_kept_five b _ hfive _ _ e he
  · intro b2 now k e e2 msg hc hk
    rw [Sched.probeOne_raise b2 now k e msg hc] at hk
    exact Sched.probeClassify_keep_last b2 now (k + 1) e e2 _ hk

/-- C9 amended witness: the entry kept after one `unknown` poll records a
normalized state, and a raising probe stores the probe-error marker. -/
theorem c9_amended_witness :
    eUnknownRound.last_status ∈ Sched.fiveStates ∧
    eStaleProbed.last_status = "probe-error: " ++ "boom" :=
  ⟨(c9_amended_last_status bUnknown 4 [tTwoRetry]
      (fun n p => ⟨"unknown", rfl, by decide⟩)).1 1 eUnknownRound (by decide),
   (c9_amended_last_status bUnknown 4 [tTwoRetry]
      (fun n p => ⟨"unknown", rfl, by decide⟩)).2 bProbeRaise 0 0 eStale eStaleProbed
      "boom" rfl (by decide)⟩

/-- C10: the caller's workflow dictionaries are never mutated by the run —
`launch_one` submits a deep copy into a fresh store cell, so every store
cell belonging to an input task still holds its original workflow content
when `run_queue` returns. -/
theorem c10_workflow_unchanged (b : Sched.Behavior) (mi : Nat) (ts : List Sched.Task0)
    (fuel : Nat) (sf : Sched.SState)
    (h : Sched.runAux b mi fuel (Sched.initState ts) = some sf)
    (i : Nat) (hi : i < ts.length) :
    sf.store.get? i = (ts.map Sched.Task0.workflow).get? i := by
  obtain ⟨l, hl⟩ := Sched.runAux_store_extends b mi fuel (Sched.initState ts) sf h
  rw [hl]
  have hinit : (Sched.initState ts).store = ts.map Sched.Task0.workflow := rfl
  rw [hinit]
  exact List.get?_append (by simpa using hi)

/-- C10 witness: a completed run on `tsFrame` whose final store still holds
the original workflow at the task's cell. -/
theorem c10_witness :
    Sched.runAux bSubRaise 1 2 (Sched.initState tsFrame) = some sFrameFinal ∧
    sFrameFinal.store.get? 0 = (tsFrame.map Sched.Task0.workflow).get? 0 :=
  ⟨by decide, c10_workflow_unchanged bSubRaise 1 tsFrame 2 sFrameFinal (by decide) 0 (by decide)⟩
